import Mathlib

/-!
Verification of the Daily Settlement Ledger core: a shallow embedding of the
Ledger Store (`database.py`, class `SettlementLedgerDB`) and of the inline-edit
controller of the GUI (`ledger_gui.py`, class `SettlementLedgerGUI`), together
with theorems settling the specification claims.

Modelling conventions:
* SQLite REAL values are modelled as `Rat` (no claim depends on binary
  floating-point rounding).
* `CURRENT_TIMESTAMP` is modelled as a `Nat` clock value passed explicitly to
  every mutating operation; within one SQL statement both occurrences denote
  the same instant, as in SQLite.
* A nullable column is `Option Rat`; SQL `NULL` is `none`.
* A Python keyword argument defaulting to `None` is an `Option` parameter;
  passing `none` is indistinguishable from omitting the argument, exactly as
  in Python.
-/

namespace DailyLedger

/-- One row of the `settlement_ledger` table, with the columns created by
`SettlementLedgerDB._initialize_database`. -/
structure Entry where
  id : Nat
  name : String
  previous_balance : Option Rat
  previous_total : Option Rat
  seller_1 : Option Rat
  seller_2 : Option Rat
  seller_3 : Option Rat
  seller_4 : Option Rat
  today_total : Option Rat
  today_balance : Option Rat
  created_at : Nat
  updated_at : Nat
deriving DecidableEq

/-- The database state: the rows of the table plus the `AUTOINCREMENT`
counter (the next id to be assigned; SQLite never reuses it). -/
structure DB where
  entries : List Entry
  nextId : Nat
deriving DecidableEq

/-- The row INSERTed by `SettlementLedgerDB.add_entry`: `created_at` takes
the column default `CURRENT_TIMESTAMP` and `updated_at` is set explicitly to
`CURRENT_TIMESTAMP` in the same statement, so both equal `now`. -/
def insertedEntry (id now : Nat) (name : String)
    (previous_balance previous_total seller_1 seller_2 seller_3 seller_4
     today_total today_balance : Option Rat) : Entry :=
  { id := id
    name := name
    previous_balance := previous_balance
    previous_total := previous_total
    seller_1 := seller_1
    seller_2 := seller_2
    seller_3 := seller_3
    seller_4 := seller_4
    today_total := today_total
    today_balance := today_balance
    created_at := now
    updated_at := now }

/-- Model of `SettlementLedgerDB.add_entry`: INSERT a new row and return the updated
database together with `cursor.lastrowid`, the id of the inserted row. -/
def add_entry (db : DB) (now : Nat) (name : String)
    (previous_balance previous_total seller_1 seller_2 seller_3 seller_4
     today_total today_balance : Option Rat) : DB × Nat :=
  ({ entries := db.entries ++
       [insertedEntry db.nextId now name previous_balance previous_total
         seller_1 seller_2 seller_3 seller_4 today_total today_balance]
     nextId := db.nextId + 1 },
   db.nextId)

/-- Model of `SettlementLedgerDB.get_entry`: SELECT ... WHERE id = ?, returning the
row or `None`. -/
def get_entry (db : DB) (entry_id : Nat) : Option Entry :=
  db.entries.find? (fun e => e.id == entry_id)

/-- The single SET clause of the dynamically built UPDATE query of
`SettlementLedgerDB.update_entry` (one item of its `updates` list together
with the corresponding parameter). -/
inductive FieldUpd where
  | name (v : String)
  | previous_balance (v : Rat)
  | previous_total (v : Rat)
  | seller_1 (v : Rat)
  | seller_2 (v : Rat)
  | seller_3 (v : Rat)
  | seller_4 (v : Rat)
  | today_total (v : Rat)
  | today_balance (v : Rat)
deriving DecidableEq

/-- A provided (non-`None`) argument contributes one SET clause; an absent
argument contributes nothing. -/
def updOf {α : Type} (o : Option α) (f : α → FieldUpd) : List FieldUpd :=
  match o with
  | some v => [f v]
  | none => []

/-- The `updates` list built by `SettlementLedgerDB.update_entry` from its
arguments, in source order. -/
def buildUpdates (name : Option String)
    (previous_balance previous_total seller_1 seller_2 seller_3 seller_4
     today_total today_balance : Option Rat) : List FieldUpd :=
  updOf name FieldUpd.name ++
  updOf previous_balance FieldUpd.previous_balance ++
  updOf previous_total FieldUpd.previous_total ++
  updOf seller_1 FieldUpd.seller_1 ++
  updOf seller_2 FieldUpd.seller_2 ++
  updOf seller_3 FieldUpd.seller_3 ++
  updOf seller_4 FieldUpd.seller_4 ++
  updOf today_total FieldUpd.today_total ++
  updOf today_balance FieldUpd.today_balance

/-- Apply one SET clause to a row. -/
def applyUpd (e : Entry) : FieldUpd → Entry
  | .name v => { e with name := v }
  | .previous_balance v => { e with previous_balance := some v }
  | .previous_total v => { e with previous_total := some v }
  | .seller_1 v => { e with seller_1 := some v }
  | .seller_2 v => { e with seller_2 := some v }
  | .seller_3 v => { e with seller_3 := some v }
  | .seller_4 v => { e with seller_4 := some v }
  | .today_total v => { e with today_total := some v }
  | .today_balance v => { e with today_balance := some v }

/-- Model of `SettlementLedgerDB.update_entry`: build the `updates` list from the
non-`None` arguments; if it is empty return `False` without touching the
database; otherwise run
`UPDATE settlement_ledger SET <updates>, updated_at = CURRENT_TIMESTAMP WHERE id = ?`
and return `cursor.rowcount > 0` (whether any row matched the id). -/
def update_entry (db : DB) (now : Nat) (entry_id : Nat) (name : Option String)
    (previous_balance previous_total seller_1 seller_2 seller_3 seller_4
     today_total today_balance : Option Rat) : DB × Bool :=
  if (buildUpdates name previous_balance previous_total seller_1
      seller_2 seller_3 seller_4 today_total today_balance).isEmpty then
    (db, false)
  else
    ({ db with entries := db.entries.map (fun e =>
        if e.id = entry_id then
          { ((buildUpdates name previous_balance previous_total seller_1
              seller_2 seller_3 seller_4 today_total today_balance).foldl
              applyUpd e) with updated_at := now }
        else e) },
     db.entries.any (fun e => e.id == entry_id))

/-- Model of `SettlementLedgerDB.update_entry_complete`: rewrite every field of the
row positionally (a `None` argument stores `NULL`, clearing the field),
refresh `updated_at`, and return `cursor.rowcount > 0`. -/
def update_entry_complete (db : DB) (now : Nat) (entry_id : Nat) (name : String)
    (previous_balance previous_total seller_1 seller_2 seller_3 seller_4
     today_total today_balance : Option Rat) : DB × Bool :=
  ({ db with entries := db.entries.map (fun e =>
      if e.id = entry_id then
        { e with
          name := name
          previous_balance := previous_balance
          previous_total := previous_total
          seller_1 := seller_1
          seller_2 := seller_2
          seller_3 := seller_3
          seller_4 := seller_4
          today_total := today_total
          today_balance := today_balance
          updated_at := now }
      else e) },
   db.entries.any (fun e => e.id == entry_id))

/-- Model of `SettlementLedgerDB.delete_entry`: DELETE ... WHERE id = ?, returning
whether a row was removed. -/
def delete_entry (db : DB) (entry_id : Nat) : DB × Bool :=
  ({ db with entries := db.entries.filter (fun e => ¬ e.id == entry_id) },
   db.entries.any (fun e => e.id == entry_id))

/-- The ordering used by `get_all_entries` and `search_by_name`:
`ORDER BY updated_at DESC` (most recently updated first). -/
def updRel (a b : Entry) : Prop := b.updated_at ≤ a.updated_at

instance : DecidableRel updRel := fun a b => Nat.decLe b.updated_at a.updated_at

instance : IsTotal Entry updRel :=
  ⟨fun a b => by unfold updRel; exact Nat.le_total _ _⟩

instance : IsTrans Entry updRel :=
  ⟨fun _ _ _ h1 h2 => Nat.le_trans h2 h1⟩

/-- Model of `SettlementLedgerDB.get_all_entries`: SELECT all rows
`ORDER BY updated_at DESC` (ties are returned in an order SQLite leaves
unspecified; the model refines it to a stable sort). -/
def get_all_entries (db : DB) : List Entry :=
  db.entries.insertionSort updRel

/-- ASCII lower-casing: SQLite's `LIKE` is case-insensitive for the ASCII
range only. -/
def asciiLower (c : Char) : Char :=
  if 'A' ≤ c ∧ c ≤ 'Z' then Char.ofNat (c.toNat + 32) else c

/-- SQLite `LIKE` pattern matching over the characters of pattern and text:
`%` matches any sequence (the pattern matches iff its remainder matches some
suffix of the text), `_` matches exactly one character, and any other pattern
character matches one text character up to ASCII case. -/
def likeMatch : List Char → List Char → Bool
  | [], s => s.isEmpty
  | a :: p, s =>
    if a = '%' then s.tails.any (fun t => likeMatch p t)
    else if a = '_' then
      match s with
      | [] => false
      | _ :: t => likeMatch p t
    else
      match s with
      | [] => false
      | c :: t => (asciiLower a = asciiLower c) && likeMatch p t

/-- The pattern the source interpolates for a search string `name`:
the characters of the SQL parameter built by the f-string with a percent sign
on each side of `name`. -/
def likePattern (s : String) : List Char :=
  '%' :: (s.data ++ ['%'])

/-- Model of `SettlementLedgerDB.search_by_name`: SELECT the rows whose `name`
matches `LIKE` against the interpolated pattern, `ORDER BY updated_at DESC`. -/
def search_by_name (db : DB) (s : String) : List Entry :=
  (db.entries.filter (fun e => likeMatch (likePattern s) e.name.data)).insertionSort updRel

/-- Python's `str.strip()`: drop leading and trailing whitespace. -/
def pyStrip (s : String) : String :=
  String.mk (((s.data.dropWhile Char.isWhitespace).reverse.dropWhile
    Char.isWhitespace).reverse)

/-- The value of the digit list read most-significant first. -/
def digitsToNat (ds : List Char) : Nat :=
  ds.foldl (fun a c => a * 10 + (c.toNat - 48)) 0

/-- Python's `float()` builtin on an already stripped string, restricted to
plain decimal numerals: an optional sign, then digits with at most one point
and at least one digit in total.  (Exponent, `inf`/`nan` and underscore forms
that `float()` also accepts are not used by any claim and are not modelled;
on those this model answers `none`.) -/
def pyFloat (s : String) : Option Rat :=
  let (sign, rest) :=
    match s.data with
    | '-' :: r => ((-1 : Rat), r)
    | '+' :: r => ((1 : Rat), r)
    | r => ((1 : Rat), r)
  let intDs := rest.takeWhile Char.isDigit
  let rest2 := rest.dropWhile Char.isDigit
  match rest2 with
  | [] =>
    if intDs.isEmpty then none
    else some (sign * (digitsToNat intDs : Rat))
  | '.' :: fr =>
    let frDs := fr.takeWhile Char.isDigit
    let rest3 := fr.dropWhile Char.isDigit
    if ¬ rest3.isEmpty then none
    else if intDs.isEmpty && frDs.isEmpty then none
    else some (sign * ((digitsToNat intDs : Rat) +
      (digitsToNat frDs : Rat) / ((10 : Rat) ^ frDs.length)))
  | _ => none

/-- Model of `SettlementLedgerGUI._parse_currency`: `None` on empty input, otherwise
strip, remove every dollar sign and comma (single-character `str.replace`),
strip again, and parse with `float()`; any parse failure yields `None`. -/
def parse_currency (s : String) : Option Rat :=
  if pyStrip s = "" then none
  else
    let cleaned := pyStrip (String.mk ((pyStrip s).data.filter
      (fun c => ¬ (c = '$' ∨ c = ','))))
    if cleaned = "" then none
    else pyFloat cleaned

/-- Model of `add_entry_menu` in `ledger.py`, the CLI create path: strip the typed
name and refuse to call the store when it is empty; otherwise call
`add_entry` with the collected optional amounts and report the new id. -/
def add_entry_menu (db : DB) (now : Nat) (rawName : String)
    (previous_balance previous_total seller_1 seller_2 seller_3 seller_4
     today_total today_balance : Option Rat) : DB × Option Nat :=
  let name := pyStrip rawName
  if name = "" then (db, none)
  else
    let r := add_entry db now name previous_balance previous_total seller_1
      seller_2 seller_3 seller_4 today_total today_balance
    (r.1, some r.2)

/-- The column headers of the treeview, in order (`columns` tuple in
`ledger_gui.py`). -/
def guiColumns : List String :=
  ["ID", "Date (PH time)", "Name", "Prev Balance", "Prev Total", "Seller 1",
   "Seller 2", "Seller 3", "Seller 4", "Today Total", "Today Balance"]

/-- Model of `SettlementLedgerGUI.column_to_field`: column header to database column. -/
def column_to_field (c : String) : Option String :=
  if c = "Name" then some "name"
  else if c = "Prev Balance" then some "previous_balance"
  else if c = "Prev Total" then some "previous_total"
  else if c = "Seller 1" then some "seller_1"
  else if c = "Seller 2" then some "seller_2"
  else if c = "Seller 3" then some "seller_3"
  else if c = "Seller 4" then some "seller_4"
  else if c = "Today Total" then some "today_total"
  else if c = "Today Balance" then some "today_balance"
  else none

/-- Model of `SettlementLedgerGUI.currency_columns`. -/
def currency_columns : List String :=
  ["Prev Balance", "Prev Total", "Seller 1", "Seller 2", "Seller 3",
   "Seller 4", "Today Total", "Today Balance"]

/-- Model of `SettlementLedgerGUI.non_editable_columns`. -/
def non_editable_columns : List String :=
  ["ID", "Date (PH time)"]

/-- The field of a row shown in a given currency column. -/
def entryField (e : Entry) (c : String) : Option Rat :=
  if c = "Prev Balance" then e.previous_balance
  else if c = "Prev Total" then e.previous_total
  else if c = "Seller 1" then e.seller_1
  else if c = "Seller 2" then e.seller_2
  else if c = "Seller 3" then e.seller_3
  else if c = "Seller 4" then e.seller_4
  else if c = "Today Total" then e.today_total
  else if c = "Today Balance" then e.today_balance
  else none

/-- Decimal rendering of a stored amount, modelling Python's `str()` of the
float that `_parse_currency` recovers from the formatted cell: an integral
amount renders with a trailing `.0`, otherwise up to two fractional digits
(stored amounts come from `_parse_currency`, so their denominator divides a
power of ten; other rationals cannot reach this function through the GUI and
get a fallback rendering). -/
def ratStr (v : Rat) : String :=
  let w := v * 100
  if w.den = 1 then
    let sgn := if w.num < 0 then "-" else ""
    let n := w.num.natAbs
    let ip := n / 100
    let fr := n % 100
    if fr = 0 then sgn ++ Nat.repr ip ++ ".0"
    else if fr % 10 = 0 then sgn ++ Nat.repr ip ++ "." ++ Nat.repr (fr / 10)
    else if fr < 10 then sgn ++ Nat.repr ip ++ ".0" ++ Nat.repr fr
    else sgn ++ Nat.repr ip ++ "." ++ Nat.repr fr
  else toString v.num ++ "/" ++ Nat.repr v.den

/-- The text `_start_inline_edit` places in the editor for a currency cell:
the displayed value is parsed back with `_parse_currency` and shown as
`str(parsed)`, or the empty string when the field is absent. -/
def currencyEditText : Option Rat → String
  | none => ""
  | some v => ratStr v

/-- The editor text `_start_inline_edit` initially shows for a cell: the
parsed-back amount for currency columns, the stored name for the name column
(an empty name displays as the empty string). -/
def initialCellText (db : DB) (entryId : Nat) (c : String) : String :=
  match get_entry db entryId with
  | none => ""
  | some e =>
    if c ∈ currency_columns then currencyEditText (entryField e c)
    else if c = "Name" then e.name
    else ""

/-- The transient editing state held by the GUI while one cell is edited:
the tree row (`editing_item`, as an index into the displayed rows), the
column header (`editing_column`), its index (`editing_column_index`), the
text currently typed in the editor widget, and whether the widget holds
input focus. -/
structure EditSession where
  item : Nat
  column : String
  columnIndex : Nat
  text : String
  hasFocus : Bool
deriving DecidableEq

/-- A call issued to the Ledger Store by the inline-edit controller: the
single-field `update_entry` call of `_finish_inline_edit` with its target id,
database field, and the value passed (a string for the name field, an
optional amount for a currency field — `none` when the typed text was empty
or unparseable). -/
inductive StoreCall where
  | update (entryId : Nat) (field : String) (nameVal : Option String)
      (amount : Option Rat)
deriving DecidableEq

/-- The state of the GUI controller: the store, the displayed rows (the ids
shown in the treeview, refreshed from `get_all_entries`; each row also holds
formatted cell texts of which only the id is read back by the controller),
the optional editing session, the number of editor widgets created and not
yet destroyed, the number of queued `after_idle` focus checks, the status
bar, and the error boxes surfaced so far. -/
structure GuiState where
  db : DB
  tree : List Nat
  editing : Option EditSession
  liveEditors : Nat
  pendingIdle : Nat
  status : String
  errors : List String
deriving DecidableEq

/-- Model of `SettlementLedgerGUI._refresh_table`: rebuild the rows from
`get_all_entries` and show the count in the status bar. -/
def refreshTable (s : GuiState) : GuiState :=
  let entries := get_all_entries s.db
  { s with
    tree := entries.map (fun e => e.id)
    status := "Total entries: " ++ Nat.repr entries.length }

/-- The controller state right after `__init__`: no edit in progress, then
an initial `_refresh_table`. -/
def initGui (db : DB) : GuiState :=
  refreshTable
    { db := db
      tree := []
      editing := none
      liveEditors := 0
      pendingIdle := 0
      status := "Ready"
      errors := [] }

/-- Model of `SettlementLedgerGUI._cancel_inline_edit`: if an editor exists, destroy
the widget and clear the editing reference; otherwise do nothing. -/
def cancelInlineEdit (s : GuiState) : GuiState :=
  match s.editing with
  | none => s
  | some _ => { s with editing := none, liveEditors := s.liveEditors - 1 }

/-- Model of `SettlementLedgerGUI._start_inline_edit`: read the row (aborting, with
no widget created, when the tree item no longer exists or the column index is
out of range), create an editor widget over the cell holding the cell's
parsed-back text, give it focus, and record the editing session.  The cell's
bounding box is taken to be available (a pure rendering condition). -/
def startInlineEdit (s : GuiState) (item : Nat) (column : String)
    (columnIndex : Nat) : GuiState :=
  match s.tree.get? item with
  | none => s
  | some entryId =>
    if columnIndex ≥ guiColumns.length then s
    else
      let sess : EditSession :=
        { item := item
          column := column
          columnIndex := columnIndex
          text := initialCellText s.db entryId column
          hasFocus := true }
      { s with editing := some sess, liveEditors := s.liveEditors + 1 }

/-- Dispatch of `self.db.update_entry(entry_id, **{field_name: value})`:
exactly one keyword argument is passed, every other parameter keeps its
`None` default.  A `None` value for the one passed keyword is therefore
indistinguishable from not passing it at all. -/
def updateSingleField (db : DB) (now entryId : Nat) (field : String)
    (nameVal : Option String) (amount : Option Rat) : DB × Bool :=
  if field = "name" then
    update_entry db now entryId nameVal none none none none none none none none
  else if field = "previous_balance" then
    update_entry db now entryId none amount none none none none none none none
  else if field = "previous_total" then
    update_entry db now entryId none none amount none none none none none none
  else if field = "seller_1" then
    update_entry db now entryId none none none amount none none none none none
  else if field = "seller_2" then
    update_entry db now entryId none none none none amount none none none none
  else if field = "seller_3" then
    update_entry db now entryId none none none none none amount none none none
  else if field = "seller_4" then
    update_entry db now entryId none none none none none none amount none none
  else if field = "today_total" then
    update_entry db now entryId none none none none none none none amount none
  else
    update_entry db now entryId none none none none none none none none amount

/-- Model of `SettlementLedgerGUI._finish_inline_edit`: read and strip the typed
text, destroy the editor (`_cancel_inline_edit`), read the record id from the
edited row, map the column to its database field; for a currency column parse
the text with `_parse_currency` (an empty or unparseable text parses to
`None`) and issue the single-field `update_entry` call, then refresh the
table and report success in the status bar; for the name column an empty text
surfaces an error and re-opens the same cell with no store call, a non-empty
text is sent as the new name.  The returned list records the store calls
made. -/
def finishInlineEditSess (s : GuiState) (now : Nat) (sess : EditSession) :
    GuiState × List StoreCall :=
  -- the saved editing state (entry widget text, item, column, column index)
  -- is `sess`, snapshotted before the cleanup, as in the source

  match (cancelInlineEdit s).tree.get? sess.item with
  | none => (cancelInlineEdit s, [])
  | some entryId =>
    match column_to_field sess.column with
    | none => (cancelInlineEdit s, [])
    | some fieldName =>
      if sess.column ∈ currency_columns then
        let parsed := parse_currency (pyStrip sess.text)
        let r := updateSingleField (cancelInlineEdit s).db now entryId fieldName
          none parsed
        let s2 := refreshTable { (cancelInlineEdit s) with db := r.1 }
        ({ s2 with status := sess.column ++ " updated successfully" },
         [StoreCall.update entryId fieldName none parsed])
      else
        if pyStrip sess.text = "" then
          let s2 := { (cancelInlineEdit s) with
            errors := (cancelInlineEdit s).errors ++
              [sess.column ++ " cannot be empty!"] }
          (startInlineEdit s2 sess.item sess.column sess.columnIndex, [])
        else
          let r := updateSingleField (cancelInlineEdit s).db now entryId fieldName
            (some (pyStrip sess.text)) none
          let s2 := refreshTable { (cancelInlineEdit s) with db := r.1 }
          ({ s2 with status := sess.column ++ " updated successfully" },
           [StoreCall.update entryId fieldName (some (pyStrip sess.text)) none])

/-- Model of `_finish_inline_edit` proper: a no-op when no edit is in progress,
otherwise the commit procedure above on the saved editing state. -/
def finishInlineEdit (s : GuiState) (now : Nat) : GuiState × List StoreCall :=
  match s.editing with
  | none => (s, [])
  | some sess => finishInlineEditSess s now sess

/-- The user-driven events the inline-edit controller reacts to.
`doubleClick` carries what the toolkit reports: whether the click landed on a
cell region, the row, and the column index.  `focusOut` is the editor losing
input focus (which only schedules a deferred check), `refocus` is a pending
click or selection event giving focus back to the editor before the idle
callback runs, and `idle` is the event loop running one queued
`after_idle` callback. -/
inductive Event where
  | doubleClick (onCell : Bool) (item : Nat) (columnIndex : Nat)
  | returnKey
  | escape
  | typed (t : String)
  | focusOut
  | refocus
  | idle
deriving DecidableEq

/-- One controller step: the handlers of `ledger_gui.py` for each event.
A double click first force-cancels any edit in progress, then starts a new
edit when it landed on an editable cell of an existing row (the identity
column routes to the external full-record form, a presentation collaborator
outside this core, and the timestamp column is ignored).  Return commits the
edit in progress (with no edit in progress it opens the external edit form).
Escape cancels.  Typing replaces the editor text.  Focus loss marks the
editor unfocused and queues an `after_idle` check; the check, when the event
loop runs it, commits only if an editor still exists and still lacks focus. -/
def step (s : GuiState) (now : Nat) : Event → GuiState × List StoreCall
  | .doubleClick onCell item columnIndex =>
    let s1 := if s.editing.isSome then cancelInlineEdit s else s
    if ¬ onCell then (s1, [])
    else if item < s1.tree.length then
      if columnIndex < guiColumns.length then
        let columnName := guiColumns[columnIndex]!
        if columnName ∈ non_editable_columns then (s1, [])
        else (startInlineEdit s1 item columnName columnIndex, [])
      else (s1, [])
    else (s1, [])
  | .returnKey =>
    match s.editing with
    | some _ => finishInlineEdit s now
    | none => (s, [])
  | .escape => (cancelInlineEdit s, [])
  | .typed t =>
    match s.editing with
    | some sess => ({ s with editing := some { sess with text := t } }, [])
    | none => (s, [])
  | .focusOut =>
    match s.editing with
    | some sess =>
      ({ s with
          editing := some { sess with hasFocus := false }
          pendingIdle := s.pendingIdle + 1 }, [])
    | none => (s, [])
  | .refocus =>
    match s.editing with
    | some sess => ({ s with editing := some { sess with hasFocus := true } }, [])
    | none => (s, [])
  | .idle =>
    if s.pendingIdle = 0 then (s, [])
    else
      let s1 := { s with pendingIdle := s.pendingIdle - 1 }
      match s1.editing with
      | some sess => if sess.hasFocus then (s1, []) else finishInlineEdit s1 now
      | none => (s1, [])

/-- Run a sequence of events, each with the clock value at which it fires. -/
def runEvents (s : GuiState) : List (Nat × Event) → GuiState
  | [] => s
  | e :: rest => runEvents (step s e.1 e.2).1 rest

/-- The value a partially updated field ends up with: a provided value
replaces the stored one, an absent value leaves it untouched. -/
def optSet (new old : Option Rat) : Option Rat :=
  match new with
  | some v => some v
  | none => old

/-- Spec-side predicate, following the specification's words: the pattern
starts the text, comparing characters ASCII case-insensitively. -/
def startsWithCI : List Char → List Char → Bool
  | [], _ => true
  | _ :: _, [] => false
  | a :: p, c :: t => (asciiLower a = asciiLower c) && startsWithCI p t

/-- Spec-side predicate, following the specification's words for
`searchByName`: the text contains the search string at some position,
comparing characters ASCII case-insensitively.  The empty search string is
contained in every text. -/
def containsCI : List Char → List Char → Bool
  | [], p => p.isEmpty
  | c :: t, p => startsWithCI p (c :: t) || containsCI t p

/-- The search string uses no `LIKE` wildcard. -/
def noWild (p : List Char) : Prop :=
  ∀ c ∈ p, c ≠ '%' ∧ c ≠ '_'

instance (p : List Char) : Decidable (noWild p) :=
  inferInstanceAs (Decidable (∀ c ∈ p, c ≠ '%' ∧ c ≠ '_'))

/-- Every stored record has a non-empty name. -/
def namesNonEmpty (db : DB) : Prop :=
  ∀ e ∈ db.entries, e.name ≠ ""

instance (db : DB) : Decidable (namesNonEmpty db) :=
  inferInstanceAs (Decidable (∀ e ∈ db.entries, e.name ≠ ""))

/-- Every stored id is below the `AUTOINCREMENT` counter (true in every
state reachable from an empty table, since SQLite never reuses ids). -/
def idsBounded (db : DB) : Prop :=
  ∀ e ∈ db.entries, e.id < db.nextId

instance (db : DB) : Decidable (idsBounded db) :=
  inferInstanceAs (Decidable (∀ e ∈ db.entries, e.id < db.nextId))

/-- The single-editor accounting: an editor widget exists exactly when an
editing session is recorded. -/
def editorInv (s : GuiState) : Prop :=
  s.liveEditors = (if s.editing.isSome then 1 else 0)

/-- Fixture: a record whose `seller_1` holds an amount, for exercising the
update operations. -/
def cexEntry : Entry :=
  { id := 1
    name := "Alice"
    previous_balance := none
    previous_total := none
    seller_1 := some 5
    seller_2 := none
    seller_3 := none
    seller_4 := none
    today_total := none
    today_balance := none
    created_at := 0
    updated_at := 0 }

/-- Fixture: a store holding just `cexEntry`. -/
def cexDB : DB := { entries := [cexEntry], nextId := 2 }

/-- Fixture: an inline edit of the `Seller 1` cell of `cexEntry`'s row with
the typed text cleared to the empty string. -/
def cexSeller1Sess : EditSession :=
  { item := 0
    column := "Seller 1"
    columnIndex := 5
    text := ""
    hasFocus := true }

/-- Fixture: the GUI mid-edit on the `Seller 1` cell with empty typed text. -/
def cexGuiSeller1 : GuiState :=
  { initGui cexDB with editing := some cexSeller1Sess, liveEditors := 1 }

/-- Fixture: a record named with the three characters a, x, b. -/
def axbEntry : Entry :=
  { id := 1
    name := "axb"
    previous_balance := none
    previous_total := none
    seller_1 := none
    seller_2 := none
    seller_3 := none
    seller_4 := none
    today_total := none
    today_balance := none
    created_at := 0
    updated_at := 0 }

/-- Fixture: a store holding just `axbEntry`. -/
def axbDB : DB := { entries := [axbEntry], nextId := 2 }

/-- The stored name of the specification's search example (with its
apostrophe, character 39). -/
def bobsStoreName : String :=
  String.mk ['B', 'o', 'b', Char.ofNat 39, 's', ' ', 'S', 't', 'o', 'r', 'e']

/-- Fixture records for the search example. -/
def bobEntry1 : Entry :=
  { id := 1
    name := bobsStoreName
    previous_balance := none
    previous_total := none
    seller_1 := none
    seller_2 := none
    seller_3 := none
    seller_4 := none
    today_total := none
    today_balance := none
    created_at := 1
    updated_at := 2 }

/-- Fixture record named bobby, updated most recently. -/
def bobEntry2 : Entry :=
  { bobEntry1 with id := 2, name := "bobby", updated_at := 3 }

/-- Fixture record named rob. -/
def bobEntry3 : Entry :=
  { bobEntry1 with id := 3, name := "rob", updated_at := 1 }

/-- Fixture: the store of the search example. -/
def bobDB : DB := { entries := [bobEntry1, bobEntry2, bobEntry3], nextId := 4 }

/-- Fixture: an editing session that still holds input focus. -/
def wSessFoc : EditSession :=
  { item := 0
    column := "Seller 1"
    columnIndex := 5
    text := "9"
    hasFocus := true }

/-- Fixture: mid-edit with focus held and one queued focus check. -/
def wFoc : GuiState :=
  { initGui cexDB with editing := some wSessFoc, liveEditors := 1, pendingIdle := 1 }

/-- Fixture: an editing session that has lost input focus. -/
def wSessUnfoc : EditSession :=
  { wSessFoc with hasFocus := false }

/-- Fixture: mid-edit with focus lost and one queued focus check. -/
def wUnfoc : GuiState :=
  { initGui cexDB with editing := some wSessUnfoc, liveEditors := 1, pendingIdle := 1 }

lemma applyUpd_id (e : Entry) (u : FieldUpd) : (applyUpd e u).id = e.id := by
  cases u <;> rfl

lemma foldl_applyUpd_id (l : List FieldUpd) (e : Entry) :
    (l.foldl applyUpd e).id = e.id := by
  induction l generalizing e with
  | nil => rfl
  | cons u t ih => rw [List.foldl_cons, ih, applyUpd_id]

lemma find?_map_ite (l : List Entry) (entry_id : Nat) (f : Entry → Entry)
    (hf : ∀ e, (f e).id = e.id) :
    (l.map (fun e => if e.id = entry_id then f e else e)).find?
        (fun e => e.id == entry_id)
      = (l.find? (fun e => e.id == entry_id)).map
          (fun e => if e.id = entry_id then f e else e) := by
  induction l with
  | nil => rfl
  | cons a t ih =>
    by_cases h : a.id = entry_id
    · have hfa : ((if a.id = entry_id then f a else a).id == entry_id) = true := by
        rw [if_pos h, hf, h, beq_self_eq_true]
      have hpa : (a.id == entry_id) = true := by
        rw [h, beq_self_eq_true]
      simp only [List.map_cons]
      rw [@List.find?_cons_of_pos Entry (fun e => e.id == entry_id) _ _ hfa,
        @List.find?_cons_of_pos Entry (fun e => e.id == entry_id) _ _ hpa]
      rfl
    · have hfa : ¬ ((if a.id = entry_id then f a else a).id == entry_id) = true := by
        rw [if_neg h]
        simpa using h
      have hpa : ¬ (a.id == entry_id) = true := by
        simpa using h
      simp only [List.map_cons]
      rw [@List.find?_cons_of_neg Entry (fun e => e.id == entry_id) _ _ hfa,
        @List.find?_cons_of_neg Entry (fun e => e.id == entry_id) _ _ hpa, ih]

lemma map_ite_id (l : List Entry) (entry_id : Nat) (f : Entry → Entry)
    (h : ∀ e ∈ l, e.id ≠ entry_id) :
    l.map (fun e => if e.id = entry_id then f e else e) = l := by
  induction l with
  | nil => rfl
  | cons a t ih =>
    simp only [List.map_cons]
    rw [if_neg (h a (List.mem_cons_self a t)),
      ih (fun e he => h e (List.mem_cons_of_mem a he))]

lemma foldl_updOf_name (nm : Option String) (e : Entry) :
    (updOf nm FieldUpd.name).foldl applyUpd e = { e with name := nm.getD e.name } := by
  cases nm <;> rfl

lemma foldl_updOf_pb (v : Option Rat) (e : Entry) :
    (updOf v FieldUpd.previous_balance).foldl applyUpd e =
      { e with previous_balance := optSet v e.previous_balance } := by
  cases v <;> rfl

lemma foldl_updOf_pt (v : Option Rat) (e : Entry) :
    (updOf v FieldUpd.previous_total).foldl applyUpd e =
      { e with previous_total := optSet v e.previous_total } := by
  cases v <;> rfl

lemma foldl_updOf_s1 (v : Option Rat) (e : Entry) :
    (updOf v FieldUpd.seller_1).foldl applyUpd e =
      { e with seller_1 := optSet v e.seller_1 } := by
  cases v <;> rfl

lemma foldl_updOf_s2 (v : Option Rat) (e : Entry) :
    (updOf v FieldUpd.seller_2).foldl applyUpd e =
      { e with seller_2 := optSet v e.seller_2 } := by
  cases v <;> rfl

lemma foldl_updOf_s3 (v : Option Rat) (e : Entry) :
    (updOf v FieldUpd.seller_3).foldl applyUpd e =
      { e with seller_3 := optSet v e.seller_3 } := by
  cases v <;> rfl

lemma foldl_updOf_s4 (v : Option Rat) (e : Entry) :
    (updOf v FieldUpd.seller_4).foldl applyUpd e =
      { e with seller_4 := optSet v e.seller_4 } := by
  cases v <;> rfl

lemma foldl_updOf_tt (v : Option Rat) (e : Entry) :
    (updOf v FieldUpd.today_total).foldl applyUpd e =
      { e with today_total := optSet v e.today_total } := by
  cases v <;> rfl

lemma foldl_updOf_tb (v : Option Rat) (e : Entry) :
    (updOf v FieldUpd.today_balance).foldl applyUpd e =
      { e with today_balance := optSet v e.today_balance } := by
  cases v <;> rfl

lemma foldl_buildUpdates (nm : Option String)
    (pb pt s1 s2 s3 s4 tt tb : Option Rat) (e : Entry) :
    ((buildUpdates nm pb pt s1 s2 s3 s4 tt tb).foldl applyUpd e) =
      { e with
        name := nm.getD e.name
        previous_balance := optSet pb e.previous_balance
        previous_total := optSet pt e.previous_total
        seller_1 := optSet s1 e.seller_1
        seller_2 := optSet s2 e.seller_2
        seller_3 := optSet s3 e.seller_3
        seller_4 := optSet s4 e.seller_4
        today_total := optSet tt e.today_total
        today_balance := optSet tb e.today_balance } := by
  unfold buildUpdates
  simp only [List.foldl_append, foldl_updOf_name, foldl_updOf_pb, foldl_updOf_pt,
    foldl_updOf_s1, foldl_updOf_s2, foldl_updOf_s3, foldl_updOf_s4,
    foldl_updOf_tt, foldl_updOf_tb]

lemma update_entry_of_empty (db : DB) (now entry_id : Nat) (nm : Option String)
    (pb pt s1 s2 s3 s4 tt tb : Option Rat)
    (h : buildUpdates nm pb pt s1 s2 s3 s4 tt tb = []) :
    update_entry db now entry_id nm pb pt s1 s2 s3 s4 tt tb = (db, false) := by
  unfold update_entry
  rw [h]
  rfl

lemma update_entry_of_ne (db : DB) (now entry_id : Nat) (nm : Option String)
    (pb pt s1 s2 s3 s4 tt tb : Option Rat)
    (h : buildUpdates nm pb pt s1 s2 s3 s4 tt tb ≠ []) :
    update_entry db now entry_id nm pb pt s1 s2 s3 s4 tt tb =
      ({ db with entries := db.entries.map (fun e =>
          if e.id = entry_id then
            { ((buildUpdates nm pb pt s1 s2 s3 s4 tt tb).foldl applyUpd e) with
              updated_at := now }
          else e) },
       db.entries.any (fun e => e.id == entry_id)) := by
  have hie : (buildUpdates nm pb pt s1 s2 s3 s4 tt tb).isEmpty = false := by
    cases hb : buildUpdates nm pb pt s1 s2 s3 s4 tt tb with
    | nil => exact absurd hb h
    | cons x l => rfl
  unfold update_entry
  rw [hie]
  rfl

lemma update_entry_found (db : DB) (now entry_id : Nat) (nm : Option String)
    (pb pt s1 s2 s3 s4 tt tb : Option Rat) (e : Entry)
    (he : get_entry db entry_id = some e)
    (hne : buildUpdates nm pb pt s1 s2 s3 s4 tt tb ≠ []) :
    (update_entry db now entry_id nm pb pt s1 s2 s3 s4 tt tb).2 = true ∧
    get_entry (update_entry db now entry_id nm pb pt s1 s2 s3 s4 tt tb).1 entry_id =
      some { e with
        name := nm.getD e.name
        previous_balance := optSet pb e.previous_balance
        previous_total := optSet pt e.previous_total
        seller_1 := optSet s1 e.seller_1
        seller_2 := optSet s2 e.seller_2
        seller_3 := optSet s3 e.seller_3
        seller_4 := optSet s4 e.seller_4
        today_total := optSet tt e.today_total
        today_balance := optSet tb e.today_balance
        updated_at := now } := by
  have he' : db.entries.find? (fun e2 => e2.id == entry_id) = some e := he
  have hmem := List.mem_of_find?_eq_some he'
  have hpred := List.find?_some he'
  have heid : e.id = entry_id := by simpa using hpred
  rw [update_entry_of_ne db now entry_id nm pb pt s1 s2 s3 s4 tt tb hne]
  refine ⟨List.any_eq_true.mpr ⟨e, hmem, hpred⟩, ?_⟩
  unfold get_entry
  rw [find?_map_ite _ _ _ (fun e2 => by rw [foldl_applyUpd_id]), he']
  rw [show Option.map (fun e2 => if e2.id = entry_id then
      { ((buildUpdates nm pb pt s1 s2 s3 s4 tt tb).foldl applyUpd e2) with
        updated_at := now } else e2) (some e) =
      some (if e.id = entry_id then
      { ((buildUpdates nm pb pt s1 s2 s3 s4 tt tb).foldl applyUpd e) with
        updated_at := now } else e) from rfl]
  rw [if_pos heid, foldl_buildUpdates]

/-- C4: for an existing record id and a non-empty field mapping, partial
update returns true, rewrites exactly the provided fields and `updated_at`
on the target record, keeps every absent field (and the id, name when absent,
and creation time) at its prior value, and leaves every other record
untouched. -/
theorem update_entry_frame (db : DB) (now entry_id : Nat) (nm : Option String)
    (pb pt s1 s2 s3 s4 tt tb : Option Rat) (e : Entry)
    (he : get_entry db entry_id = some e)
    (hne : buildUpdates nm pb pt s1 s2 s3 s4 tt tb ≠ []) :
    (update_entry db now entry_id nm pb pt s1 s2 s3 s4 tt tb).2 = true ∧
    get_entry (update_entry db now entry_id nm pb pt s1 s2 s3 s4 tt tb).1 entry_id =
      some { e with
        name := nm.getD e.name
        previous_balance := optSet pb e.previous_balance
        previous_total := optSet pt e.previous_total
        seller_1 := optSet s1 e.seller_1
        seller_2 := optSet s2 e.seller_2
        seller_3 := optSet s3 e.seller_3
        seller_4 := optSet s4 e.seller_4
        today_total := optSet tt e.today_total
        today_balance := optSet tb e.today_balance
        updated_at := now } ∧
    (∀ e2 ∈ db.entries, e2.id ≠ entry_id →
      e2 ∈ (update_entry db now entry_id nm pb pt s1 s2 s3 s4 tt tb).1.entries) ∧
    (update_entry db now entry_id nm pb pt s1 s2 s3 s4 tt tb).1.entries.length =
      db.entries.length := by
  obtain ⟨h1, h2⟩ := update_entry_found db now entry_id nm pb pt s1 s2 s3 s4 tt tb e he hne
  refine ⟨h1, h2, ?_, ?_⟩
  · intro e2 h2m hne2
    rw [update_entry_of_ne db now entry_id nm pb pt s1 s2 s3 s4 tt tb hne]
    exact List.mem_map.mpr ⟨e2, h2m, by rw [if_neg hne2]⟩
  · rw [update_entry_of_ne db now entry_id nm pb pt s1 s2 s3 s4 tt tb hne]
    exact List.length_map _ _

/-- Witness for C4: in the fixture store, providing only `seller_2` updates
it, returns true, and leaves the previously set `seller_1` amount in place. -/
theorem update_entry_frame_witness :
    get_entry cexDB 1 = some cexEntry ∧
    buildUpdates none none none none (some 7) none none none none ≠ [] ∧
    (update_entry cexDB 9 1 none none none none (some 7) none none none none).2 = true ∧
    (get_entry (update_entry cexDB 9 1 none none none none (some 7) none none none none).1 1).map
      (fun e => (e.seller_1, e.seller_2)) = some (some 5, some 7) :=
  ⟨rfl, by decide,
   (update_entry_frame cexDB 9 1 none none none none (some 7) none none none none cexEntry rfl
     (by decide)).1,
   by decide⟩

/-- C5: partial update returns false exactly when the update mapping is
empty or no record has the target id, and whenever it returns false the
store is completely unchanged (no field modified, no `updated_at` bump). -/
theorem update_entry_failure (db : DB) (now entry_id : Nat) (nm : Option String)
    (pb pt s1 s2 s3 s4 tt tb : Option Rat) :
    ((update_entry db now entry_id nm pb pt s1 s2 s3 s4 tt tb).2 = false ↔
      buildUpdates nm pb pt s1 s2 s3 s4 tt tb = [] ∨
        ∀ e ∈ db.entries, e.id ≠ entry_id) ∧
    ((update_entry db now entry_id nm pb pt s1 s2 s3 s4 tt tb).2 = false →
      update_entry db now entry_id nm pb pt s1 s2 s3 s4 tt tb = (db, false)) := by
  by_cases hb : buildUpdates nm pb pt s1 s2 s3 s4 tt tb = []
  · rw [update_entry_of_empty db now entry_id nm pb pt s1 s2 s3 s4 tt tb hb]
    exact ⟨by simp [hb], fun _ => rfl⟩
  · rw [update_entry_of_ne db now entry_id nm pb pt s1 s2 s3 s4 tt tb hb]
    constructor
    · show db.entries.any (fun e => e.id == entry_id) = false ↔ _
      rw [List.any_eq_false]
      simp [hb]
    · intro hfalse
      have hany : db.entries.any (fun e => e.id == entry_id) = false := hfalse
      have hall : ∀ e ∈ db.entries, e.id ≠ entry_id := by
        intro e hm
        simpa using List.any_eq_false.mp hany e hm
      rw [map_ite_id _ _ _ hall, hany]

/-- Witness for C5: a target id absent from the fixture store makes the
update fail with the store unchanged. -/
theorem update_entry_failure_witness :
    (update_entry cexDB 5 99 (some ("X")) none none none none none none none none).2 = false ∧
    update_entry cexDB 5 99 (some ("X")) none none none none none none none none =
      (cexDB, false) :=
  ⟨by decide,
   (update_entry_failure cexDB 5 99 (some ("X")) none none none none none none none none).2
     (by decide)⟩

/-- C2 counterexample: the Ledger Store's create operation itself performs no
name validation: called with an empty name it raises nothing, inserts a row
whose stored name is empty, and returns the new id. -/
theorem add_entry_empty_name_cex :
    (add_entry { entries := [], nextId := 1 } 0 ("") none none none none none none none none).2 = 1 ∧
    ((add_entry { entries := [], nextId := 1 } 0 ("") none none none none none none none none).1.entries.map
      (fun e => e.name)) = [""] ∧
    (add_entry { entries := [], nextId := 1 } 0 ("") none none none none none none none none).1.entries.length = 1 := by
  decide

/-- C2 (amended): name validation for create lives in the caller, not the
store: the CLI create path strips the typed name and, when the result is
empty (so also for whitespace-only input), reports an error without calling
the store, leaving it unchanged; for any other name it inserts exactly one
record with `created_at = updated_at = now`, every unspecified optional
field stored as no value, and returns the new id, which no existing record
carries. -/
theorem create_menu_spec (db : DB) (now : Nat) (rawName : String)
    (pb pt s1 s2 s3 s4 tt tb : Option Rat) (hfresh : idsBounded db) :
    (pyStrip rawName = "" →
      add_entry_menu db now rawName pb pt s1 s2 s3 s4 tt tb = (db, none)) ∧
    (pyStrip rawName ≠ "" →
      (add_entry_menu db now rawName pb pt s1 s2 s3 s4 tt tb).2 = some db.nextId ∧
      (∀ e ∈ db.entries, e.id ≠ db.nextId) ∧
      (add_entry_menu db now rawName pb pt s1 s2 s3 s4 tt tb).1.entries =
        db.entries ++
          [insertedEntry db.nextId now (pyStrip rawName) pb pt s1 s2 s3 s4 tt tb] ∧
      get_entry (add_entry_menu db now rawName pb pt s1 s2 s3 s4 tt tb).1 db.nextId =
        some (insertedEntry db.nextId now (pyStrip rawName) pb pt s1 s2 s3 s4 tt tb)) := by
  constructor
  · intro h
    unfold add_entry_menu
    rw [if_pos h]
  · intro h
    have hne : ∀ e ∈ db.entries, e.id ≠ db.nextId :=
      fun e he => Nat.ne_of_lt (hfresh e he)
    have hmenu : add_entry_menu db now rawName pb pt s1 s2 s3 s4 tt tb =
        ((add_entry db now (pyStrip rawName) pb pt s1 s2 s3 s4 tt tb).1,
         some (add_entry db now (pyStrip rawName) pb pt s1 s2 s3 s4 tt tb).2) := by
      unfold add_entry_menu
      rw [if_neg h]
    rw [hmenu]
    refine ⟨rfl, hne, rfl, ?_⟩
    unfold get_entry add_entry
    rw [List.find?_append]
    have hnone : db.entries.find? (fun e => e.id == db.nextId) = none :=
      List.find?_eq_none.mpr (fun e he => by simpa using hne e he)
    have hself : ((insertedEntry db.nextId now (pyStrip rawName) pb pt s1 s2 s3 s4
        tt tb).id == db.nextId) = true := beq_self_eq_true _
    rw [hnone, @List.find?_cons_of_pos Entry (fun e => e.id == db.nextId) _ _ hself]
    rfl

/-- Witness for C2: whitespace-only input is rejected without touching the
fixture store, and the name Bob is inserted under the next free id. -/
theorem create_menu_spec_witness :
    pyStrip ("   ") = "" ∧
    add_entry_menu cexDB 4 ("   ") none none none none none none none none = (cexDB, none) ∧
    (add_entry_menu cexDB 4 ("Bob") none none none none none none none none).2 = some 2 :=
  ⟨by decide,
   (create_menu_spec cexDB 4 ("   ") none none none none none none none none
     (by decide)).1 (by decide),
   ((create_menu_spec cexDB 4 ("Bob") none none none none none none none none
     (by decide)).2 (by decide)).1⟩

/-- C3 counterexample: a successful full replace can store an empty name:
on the fixture store it returns true and the record's name becomes empty. -/
theorem full_replace_empty_name_cex :
    (update_entry_complete cexDB 5 1 ("") none none none none none none none none).2 = true ∧
    ((update_entry_complete cexDB 5 1 ("") none none none none none none none none).1.entries.map
      (fun e => e.name)) = [""] := by
  decide

/-- C3 (amended): the store itself does not enforce non-empty names; the
invariant holds exactly when callers supply non-empty names: if every stored
name is non-empty and the name argument is non-empty, then after `add_entry`
and after `update_entry_complete` every stored name is still non-empty. -/
theorem name_nonempty_preservation (db : DB) (now entry_id : Nat) (nm : String)
    (pb pt s1 s2 s3 s4 tt tb : Option Rat)
    (hdb : namesNonEmpty db) (hnm : nm ≠ "") :
    namesNonEmpty (add_entry db now nm pb pt s1 s2 s3 s4 tt tb).1 ∧
    namesNonEmpty (update_entry_complete db now entry_id nm pb pt s1 s2 s3 s4 tt tb).1 := by
  constructor
  · intro e he
    have hent : (add_entry db now nm pb pt s1 s2 s3 s4 tt tb).1.entries =
        db.entries ++ [insertedEntry db.nextId now nm pb pt s1 s2 s3 s4 tt tb] := rfl
    rw [hent] at he
    rcases List.mem_append.mp he with h | h
    · exact hdb e h
    · rw [List.mem_singleton.mp h]
      exact hnm
  · intro e he
    have hent : (update_entry_complete db now entry_id nm pb pt s1 s2 s3 s4 tt tb).1.entries =
        db.entries.map (fun e0 =>
          if e0.id = entry_id then
            { e0 with
              name := nm
              previous_balance := pb
              previous_total := pt
              seller_1 := s1
              seller_2 := s2
              seller_3 := s3
              seller_4 := s4
              today_total := tt
              today_balance := tb
              updated_at := now }
          else e0) := rfl
    rw [hent] at he
    rcases List.mem_map.mp he with ⟨e0, h0, rfl⟩
    by_cases h : e0.id = entry_id
    · rw [if_pos h]
      exact hnm
    · rw [if_neg h]
      exact hdb e0 h0

/-- Witness for C3: inserting and fully replacing with the non-empty name
Bea keeps every name in the fixture store non-empty. -/
theorem name_nonempty_preservation_witness :
    namesNonEmpty (add_entry cexDB 3 ("Bea") none none none none none none none none).1 ∧
    namesNonEmpty (update_entry_complete cexDB 3 1 ("Bea") none none none none none none none none).1 :=
  name_nonempty_preservation cexDB 3 1 ("Bea") none none none none none none none none
    (by decide) (by decide)

/-- C6: full replace on an existing id returns true and rewrites the name,
all eight optional amounts (a field supplied as no value is cleared even if
previously set) and `updated_at`, keeping only the id and creation time; on a
missing id it returns false and changes nothing. -/
theorem full_replace_spec (db : DB) (now entry_id : Nat) (nm : String)
    (pb pt s1 s2 s3 s4 tt tb : Option Rat) :
    (∀ e, get_entry db entry_id = some e →
      (update_entry_complete db now entry_id nm pb pt s1 s2 s3 s4 tt tb).2 = true ∧
      get_entry (update_entry_complete db now entry_id nm pb pt s1 s2 s3 s4 tt tb).1 entry_id =
        some { e with
          name := nm
          previous_balance := pb
          previous_total := pt
          seller_1 := s1
          seller_2 := s2
          seller_3 := s3
          seller_4 := s4
          today_total := tt
          today_balance := tb
          updated_at := now }) ∧
    (get_entry db entry_id = none →
      update_entry_complete db now entry_id nm pb pt s1 s2 s3 s4 tt tb = (db, false)) := by
  constructor
  · intro e he
    have he' : db.entries.find? (fun e2 => e2.id == entry_id) = some e := he
    have hmem := List.mem_of_find?_eq_some he'
    have hpred := List.find?_some he'
    have heid : e.id = entry_id := by simpa using hpred
    refine ⟨List.any_eq_true.mpr ⟨e, hmem, hpred⟩, ?_⟩
    have hmap := find?_map_ite db.entries entry_id (fun e2 =>
      { e2 with
        name := nm
        previous_balance := pb
        previous_total := pt
        seller_1 := s1
        seller_2 := s2
        seller_3 := s3
        seller_4 := s4
        today_total := tt
        today_balance := tb
        updated_at := now }) (fun e2 => rfl)
    unfold update_entry_complete get_entry
    rw [hmap, he', Option.map_some', if_pos heid]
  · intro hnone
    have hall : ∀ e ∈ db.entries, e.id ≠ entry_id := by
      intro e hm
      have := List.find?_eq_none.mp hnone e hm
      simpa using this
    have hany : db.entries.any (fun e => e.id == entry_id) = false :=
      List.any_eq_false.mpr (fun e hm => by simpa using hall e hm)
    unfold update_entry_complete
    rw [map_ite_id _ _ _ hall, hany]

/-- Witness for C6: fully replacing the fixture record with the name Bea and
no amounts clears the previously set `seller_1`, and a missing id leaves the
store unchanged. -/
theorem full_replace_spec_witness :
    get_entry cexDB 1 = some cexEntry ∧
    (update_entry_complete cexDB 9 1 ("Bea") none none none none none none none none).2 = true ∧
    (get_entry (update_entry_complete cexDB 9 1 ("Bea") none none none none none none none none).1 1).map
      (fun e => (e.name, e.seller_1)) = some (("Bea"), none) ∧
    update_entry_complete cexDB 9 99 ("Bea") none none none none none none none none =
      (cexDB, false) :=
  ⟨rfl,
   ((full_replace_spec cexDB 9 1 ("Bea") none none none none none none none none).1
     cexEntry rfl).1,
   by decide,
   (full_replace_spec cexDB 9 99 ("Bea") none none none none none none none none).2 rfl⟩

lemma cancelInlineEdit_db (s : GuiState) : (cancelInlineEdit s).db = s.db := by
  unfold cancelInlineEdit
  cases s.editing <;> rfl

lemma cancelInlineEdit_tree (s : GuiState) : (cancelInlineEdit s).tree = s.tree := by
  unfold cancelInlineEdit
  cases s.editing <;> rfl

lemma cancelInlineEdit_editing (s : GuiState) : (cancelInlineEdit s).editing = none := by
  unfold cancelInlineEdit
  cases h : s.editing with
  | none => exact h
  | some sess => rfl

lemma startInlineEdit_db (s : GuiState) (item : Nat) (c : String) (ci : Nat) :
    (startInlineEdit s item c ci).db = s.db := by
  unfold startInlineEdit
  cases s.tree.get? item with
  | none => rfl
  | some entryId =>
    dsimp only
    by_cases h : ci ≥ guiColumns.length
    · rw [if_pos h]
    · rw [if_neg h]

lemma refreshTable_db (s : GuiState) : (refreshTable s).db = s.db := rfl

lemma name_empty_commit_no_call (g : GuiState) (sess : EditSession) (now2 : Nat)
    (hg : g.editing = some sess) (hcol : sess.column = "Name")
    (htext : pyStrip sess.text = "") :
    (step g now2 Event.returnKey).2 = [] ∧ (step g now2 Event.returnKey).1.db = g.db := by
  have hstep : step g now2 Event.returnKey = finishInlineEditSess g now2 sess := by
    unfold step finishInlineEdit
    rw [hg]
  rw [hstep]
  unfold finishInlineEditSess
  cases htree : (cancelInlineEdit g).tree.get? sess.item with
  | none =>
    exact ⟨rfl, cancelInlineEdit_db g⟩
  | some entryId =>
    dsimp only
    rw [hcol]
    rw [show column_to_field ("Name") = some ("name") from rfl]
    dsimp only
    have hnc : ¬ (("Name" : String) ∈ currency_columns) := by decide
    rw [if_neg hnc, if_pos htext]
    refine ⟨rfl, ?_⟩
    exact (startInlineEdit_db _ sess.item ("Name") sess.columnIndex).trans
      (cancelInlineEdit_db g)

/-- C10: for an existing record id, partial update called with the empty
string as the name is treated as a provided value: it returns true and
stores the empty name (with a refreshed `updated_at`), even though the CLI
create path rejects an empty name without calling the store and the inline
editor's name commit with empty text issues no store call and changes
nothing. -/
theorem update_entry_empty_name (db : DB) (now entry_id : Nat) (e : Entry)
    (he : get_entry db entry_id = some e) :
    (update_entry db now entry_id (some ("")) none none none none none none none none).2 = true ∧
    get_entry (update_entry db now entry_id (some ("")) none none none none none none none none).1
        entry_id = some { e with name := "", updated_at := now } ∧
    add_entry_menu db now ("") none none none none none none none none = (db, none) ∧
    (∀ (g : GuiState) (sess : EditSession) (now2 : Nat),
      g.editing = some sess → sess.column = "Name" → pyStrip sess.text = "" →
      (step g now2 Event.returnKey).2 = [] ∧ (step g now2 Event.returnKey).1.db = g.db) := by
  obtain ⟨h1, h2⟩ := update_entry_found db now entry_id (some ("")) none none none
    none none none none none e he (by decide)
  refine ⟨h1, h2, ?_, ?_⟩
  · have hps : pyStrip ("") = "" := rfl
    simp [add_entry_menu, hps]
  · intro g sess now2 hg hcol htext
    exact name_empty_commit_no_call g sess now2 hg hcol htext

/-- Witness for C10: on the fixture store, updating record 1 with an empty
name succeeds and the stored name becomes empty. -/
theorem update_entry_empty_name_witness :
    get_entry cexDB 1 = some cexEntry ∧
    (update_entry cexDB 9 1 (some ("")) none none none none none none none none).2 = true ∧
    (get_entry (update_entry cexDB 9 1 (some ("")) none none none none none none none none).1 1).map
      (fun e => e.name) = some ("") :=
  ⟨rfl,
   (update_entry_empty_name cexDB 9 1 cexEntry rfl).1,
   by decide⟩

lemma startsWithCI_nil (p : List Char) : startsWithCI p [] = p.isEmpty := by
  cases p <;> rfl

lemma likeMatch_percent (t : List Char) : likeMatch ['%'] t = true := by
  unfold likeMatch
  rw [if_pos rfl]
  apply List.any_eq_true.mpr
  exact ⟨[], (List.mem_tails _ _).mpr List.nil_suffix, rfl⟩

lemma likeMatch_append_pct : ∀ (p : List Char), noWild p →
    ∀ t, likeMatch (p ++ ['%']) t = startsWithCI p t
  | [], _, t => by
    rw [List.nil_append, likeMatch_percent]
    rfl
  | a :: p', hp, [] => by
    have ha := hp a (List.mem_cons_self a p')
    show likeMatch (a :: (p' ++ ['%'])) [] = false
    unfold likeMatch
    rw [if_neg ha.1, if_neg ha.2]
  | a :: p', hp, c :: t' => by
    have ha := hp a (List.mem_cons_self a p')
    have hp' : noWild p' := fun d hd => hp d (List.mem_cons_of_mem a hd)
    show likeMatch (a :: (p' ++ ['%'])) (c :: t') = startsWithCI (a :: p') (c :: t')
    unfold likeMatch
    rw [if_neg ha.1, if_neg ha.2]
    show (decide (asciiLower a = asciiLower c) && likeMatch (p' ++ ['%']) t') = _
    rw [likeMatch_append_pct p' hp' t']
    rfl

lemma containsCI_eq_any : ∀ (t p : List Char),
    containsCI t p = t.tails.any (fun t' => startsWithCI p t')
  | [], p => by
    show p.isEmpty = List.any [[]] (fun t' => startsWithCI p t')
    rw [List.any_cons, List.any_nil, startsWithCI_nil, Bool.or_false]
  | c :: t', p => by
    show (startsWithCI p (c :: t') || containsCI t' p) = _
    rw [List.tails_cons, List.any_cons, containsCI_eq_any t' p]

lemma likeMatch_pattern (s t : List Char) (hs : noWild s) :
    likeMatch ('%' :: (s ++ ['%'])) t = containsCI t s := by
  unfold likeMatch
  rw [if_pos rfl, containsCI_eq_any]
  simp only [likeMatch_append_pct s hs]

lemma containsCI_nilPat : ∀ t : List Char, containsCI t [] = true
  | [] => rfl
  | c :: t => by
    show (startsWithCI [] (c :: t) || containsCI t []) = true
    rw [containsCI_nilPat t]
    rfl

lemma search_filter_eq (db : DB) (s : String) (hs : noWild s.data) :
    db.entries.filter (fun e => likeMatch (likePattern s) e.name.data) =
      db.entries.filter (fun e => containsCI e.name.data s.data) := by
  apply List.filter_congr
  intro e _
  show likeMatch (likePattern s) e.name.data = containsCI e.name.data s.data
  unfold likePattern
  exact likeMatch_pattern s.data e.name.data hs

/-- C7 counterexample: the search matches via the SQL LIKE pattern, so a
percent sign in the search string acts as a wildcard: searching for the
three characters a, percent, b returns the record named axb even though that
name does not contain the search string. -/
theorem search_substring_cex :
    (search_by_name axbDB ("a%b")).map (fun e => e.name) = ["axb"] ∧
    containsCI ("axb").data ("a%b").data = false := by
  decide

/-- C7 (amended): searchByName matches names against the SQL LIKE pattern
built by surrounding the search string with percent signs, ASCII
case-insensitively, so percent and underscore in the search string act as
wildcards; for a search string containing neither wildcard the result is,
up to order, exactly the records whose name contains the string
case-insensitively at some position, the result is ordered most recently
updated first, the empty search string matches every record, and bob matches
the stored names Bob's Store and bobby but not rob. -/
theorem search_by_name_spec (db : DB) (s : String) (hs : noWild s.data) :
    List.Perm (search_by_name db s)
      (db.entries.filter (fun e => containsCI e.name.data s.data)) ∧
    List.Sorted updRel (search_by_name db s) ∧
    (s = "" → List.Perm (search_by_name db s) db.entries) ∧
    (search_by_name bobDB ("bob")).map (fun e => e.name) = ["bobby", bobsStoreName] := by
  refine ⟨?_, ?_, ?_, ?_⟩
  · unfold search_by_name
    rw [search_filter_eq db s hs]
    exact List.perm_insertionSort updRel _
  · exact List.sorted_insertionSort updRel _
  · intro hempty
    subst hempty
    unfold search_by_name
    have hfe : db.entries.filter
        (fun e => likeMatch (likePattern ("")) e.name.data) = db.entries := by
      apply List.filter_eq_self.mpr
      intro e _
      show likeMatch (likePattern ("")) e.name.data = true
      have hlp : likePattern ("") = '%' :: ([] ++ ['%']) := rfl
      rw [hlp, likeMatch_pattern [] e.name.data (fun c hc => absurd hc (List.not_mem_nil c)),
        containsCI_nilPat]
    rw [hfe]
    exact List.perm_insertionSort updRel _
  · decide

/-- Witness for C7: the search string bob contains no LIKE wildcard, and the
search over the example store is sorted most recently updated first. -/
theorem search_by_name_spec_witness :
    noWild ("bob").data ∧ List.Sorted updRel (search_by_name bobDB ("bob")) :=
  ⟨by decide, (search_by_name_spec bobDB ("bob") (by decide)).2.1⟩

lemma editorInv_init (db : DB) : editorInv (initGui db) := rfl

lemma editorInv_cancel (s : GuiState) (h : editorInv s) :
    editorInv (cancelInlineEdit s) := by
  unfold cancelInlineEdit
  cases he : s.editing with
  | none => exact h
  | some sess =>
    have h1 : s.liveEditors = 1 := by
      unfold editorInv at h
      rw [he] at h
      exact h
    show ({ s with editing := none, liveEditors := s.liveEditors - 1 } : GuiState).liveEditors =
      if (none : Option EditSession).isSome then 1 else 0
    rw [h1]
    rfl

lemma editorInv_start (s : GuiState) (item : Nat) (c : String) (ci : Nat)
    (he : s.editing = none) (hl : s.liveEditors = 0) :
    editorInv (startInlineEdit s item c ci) := by
  unfold startInlineEdit
  cases s.tree.get? item with
  | none =>
    unfold editorInv
    rw [he, hl]
    rfl
  | some entryId =>
    dsimp only
    by_cases h : ci ≥ guiColumns.length
    · rw [if_pos h]
      unfold editorInv
      rw [he, hl]
      rfl
    · rw [if_neg h]
      unfold editorInv
      rw [hl]
      rfl

lemma editorInv_finishSess (s : GuiState) (now : Nat) (sess : EditSession)
    (h : editorInv s) (hsome : s.editing = some sess) :
    editorInv (finishInlineEditSess s now sess).1 := by
  have hc_ed : (cancelInlineEdit s).editing = none := cancelInlineEdit_editing s
  have hc_l : (cancelInlineEdit s).liveEditors = 0 := by
    have h1 : s.liveEditors = 1 := by
      unfold editorInv at h
      rw [hsome] at h
      exact h
    unfold cancelInlineEdit
    rw [hsome]
    dsimp only
    rw [h1]
  unfold finishInlineEditSess
  cases htree : (cancelInlineEdit s).tree.get? sess.item with
  | none =>
    unfold editorInv
    rw [hc_ed, hc_l]
    rfl
  | some entryId =>
    dsimp only
    cases hcf : column_to_field sess.column with
    | none =>
      unfold editorInv
      rw [hc_ed, hc_l]
      rfl
    | some fieldName =>
      dsimp only
      by_cases hcur : sess.column ∈ currency_columns
      · rw [if_pos hcur]
        show (cancelInlineEdit s).liveEditors =
          if (cancelInlineEdit s).editing.isSome then 1 else 0
        rw [hc_ed, hc_l]
        rfl
      · rw [if_neg hcur]
        by_cases hemp : pyStrip sess.text = ""
        · rw [if_pos hemp]
          exact editorInv_start _ sess.item sess.column sess.columnIndex hc_ed hc_l
        · rw [if_neg hemp]
          show (cancelInlineEdit s).liveEditors =
            if (cancelInlineEdit s).editing.isSome then 1 else 0
          rw [hc_ed, hc_l]
          rfl

lemma editorInv_finish (s : GuiState) (now : Nat) (h : editorInv s) :
    editorInv (finishInlineEdit s now).1 := by
  unfold finishInlineEdit
  cases hsome : s.editing with
  | none => exact h
  | some sess => exact editorInv_finishSess s now sess h hsome

lemma editorInv_step (s : GuiState) (now : Nat) (ev : Event) (h : editorInv s) :
    editorInv (step s now ev).1 := by
  cases ev with
  | doubleClick onCell item ci =>
    have hs1inv : editorInv (if s.editing.isSome then cancelInlineEdit s else s) := by
      by_cases hb : s.editing.isSome
      · rw [if_pos hb]
        exact editorInv_cancel s h
      · rw [if_neg hb]
        exact h
    have hs1ed : (if s.editing.isSome then cancelInlineEdit s else s).editing = none := by
      by_cases hb : s.editing.isSome
      · rw [if_pos hb]
        exact cancelInlineEdit_editing s
      · rw [if_neg hb]
        exact Option.not_isSome_iff_eq_none.mp hb
    have hs1l : (if s.editing.isSome then cancelInlineEdit s else s).liveEditors = 0 := by
      unfold editorInv at hs1inv
      rw [hs1ed] at hs1inv
      exact hs1inv
    obtain ⟨s1, hs1⟩ : ∃ s1, (if s.editing.isSome then cancelInlineEdit s else s) = s1 :=
      ⟨_, rfl⟩
    rw [hs1] at hs1inv hs1ed hs1l
    unfold step
    rw [hs1]
    dsimp only
    by_cases hoc : ¬ onCell
    · rw [if_pos hoc]
      exact hs1inv
    · rw [if_neg hoc]
      by_cases hit : item < s1.tree.length
      · rw [if_pos hit]
        by_cases hci : ci < guiColumns.length
        · rw [if_pos hci]
          by_cases hne : guiColumns[ci]! ∈ non_editable_columns
          · rw [if_pos hne]
            exact hs1inv
          · rw [if_neg hne]
            exact editorInv_start s1 item _ ci hs1ed hs1l
        · rw [if_neg hci]
          exact hs1inv
      · rw [if_neg hit]
        exact hs1inv
  | returnKey =>
    unfold step
    cases hsome : s.editing with
    | none => exact h
    | some sess =>
      dsimp only
      exact editorInv_finish s now h
  | escape => exact editorInv_cancel s h
  | typed t =>
    unfold step
    cases hsome : s.editing with
    | none => exact h
    | some sess =>
      dsimp only
      have h1 : s.liveEditors = 1 := by
        unfold editorInv at h
        rw [hsome] at h
        exact h
      unfold editorInv
      exact h1
  | focusOut =>
    unfold step
    cases hsome : s.editing with
    | none => exact h
    | some sess =>
      dsimp only
      have h1 : s.liveEditors = 1 := by
        unfold editorInv at h
        rw [hsome] at h
        exact h
      unfold editorInv
      exact h1
  | refocus =>
    unfold step
    cases hsome : s.editing with
    | none => exact h
    | some sess =>
      dsimp only
      have h1 : s.liveEditors = 1 := by
        unfold editorInv at h
        rw [hsome] at h
        exact h
      unfold editorInv
      exact h1
  | idle =>
    unfold step
    by_cases hp : s.pendingIdle = 0
    · rw [if_pos hp]
      exact h
    · rw [if_neg hp]
      dsimp only
      cases hsome : s.editing with
      | none =>
        have h0 : s.liveEditors = 0 := by
          unfold editorInv at h
          rw [hsome] at h
          exact h
        dsimp only
        unfold editorInv
        exact h0
      | some sess =>
        dsimp only
        by_cases hf : sess.hasFocus
        · rw [if_pos hf]
          have h1 : s.liveEditors = 1 := by
            unfold editorInv at h
            rw [hsome] at h
            exact h
          unfold editorInv
          exact h1
        · rw [if_neg hf]
          have h1 : editorInv { s with editing := some sess, pendingIdle := s.pendingIdle - 1 } := by
            unfold editorInv at h ⊢
            rw [hsome] at h
            exact h
          have hsome1 : ({ s with editing := some sess, pendingIdle := s.pendingIdle - 1 } :
            GuiState).editing = some sess := rfl
          exact editorInv_finishSess _ now sess h1 hsome1

lemma editorInv_runEvents : ∀ (evs : List (Nat × Event)) (s : GuiState),
    editorInv s → editorInv (runEvents s evs)
  | [], _, h => h
  | e :: rest, s, h =>
    editorInv_runEvents rest (step s e.1 e.2).1 (editorInv_step s e.1 e.2 h)

lemma startInlineEdit_spec (s : GuiState) (item : Nat) (c : String) (ci : Nat) :
    (startInlineEdit s item c ci).editing = s.editing ∨
    ∃ entryId, s.tree.get? item = some entryId ∧
      (startInlineEdit s item c ci).editing =
        some { item := item, column := c, columnIndex := ci,
               text := initialCellText s.db entryId c, hasFocus := true } := by
  unfold startInlineEdit
  cases ht : s.tree.get? item with
  | none => exact Or.inl rfl
  | some entryId =>
    dsimp only
    by_cases h : ci ≥ guiColumns.length
    · rw [if_pos h]
      exact Or.inl rfl
    · rw [if_neg h]
      exact Or.inr ⟨entryId, rfl, rfl⟩

lemma doubleClick_no_store (s : GuiState) (now : Nat) (onCell : Bool) (item ci : Nat) :
    (step s now (Event.doubleClick onCell item ci)).2 = [] ∧
    (step s now (Event.doubleClick onCell item ci)).1.db = s.db ∧
    ((step s now (Event.doubleClick onCell item ci)).1.editing = none ∨
      ∃ (sess2 : EditSession) (entryId : Nat),
        (step s now (Event.doubleClick onCell item ci)).1.editing = some sess2 ∧
        sess2.item = item ∧ sess2.columnIndex = ci ∧ sess2.hasFocus = true ∧
        s.tree.get? item = some entryId ∧
        sess2.text = initialCellText s.db entryId sess2.column) := by
  have hs1ed : (if s.editing.isSome then cancelInlineEdit s else s).editing = none := by
    by_cases hb : s.editing.isSome
    · rw [if_pos hb]
      exact cancelInlineEdit_editing s
    · rw [if_neg hb]
      exact Option.not_isSome_iff_eq_none.mp hb
  have hs1db : (if s.editing.isSome then cancelInlineEdit s else s).db = s.db := by
    by_cases hb : s.editing.isSome
    · rw [if_pos hb]
      exact cancelInlineEdit_db s
    · rw [if_neg hb]
  have hs1tr : (if s.editing.isSome then cancelInlineEdit s else s).tree = s.tree := by
    by_cases hb : s.editing.isSome
    · rw [if_pos hb]
      exact cancelInlineEdit_tree s
    · rw [if_neg hb]
  obtain ⟨s1, hs1⟩ : ∃ s1, (if s.editing.isSome then cancelInlineEdit s else s) = s1 :=
    ⟨_, rfl⟩
  rw [hs1] at hs1ed hs1db hs1tr
  unfold step
  rw [hs1]
  dsimp only
  by_cases hoc : ¬ onCell
  · rw [if_pos hoc]
    exact ⟨rfl, hs1db, Or.inl hs1ed⟩
  · rw [if_neg hoc]
    by_cases hit : item < s1.tree.length
    · rw [if_pos hit]
      by_cases hci : ci < guiColumns.length
      · rw [if_pos hci]
        by_cases hne : guiColumns[ci]! ∈ non_editable_columns
        · rw [if_pos hne]
          exact ⟨rfl, hs1db, Or.inl hs1ed⟩
        · rw [if_neg hne]
          refine ⟨rfl, (startInlineEdit_db s1 item _ ci).trans hs1db, ?_⟩
          rcases startInlineEdit_spec s1 item (guiColumns[ci]!) ci with hsp | ⟨entryId, ht, hsp⟩
          · rw [hsp, hs1ed]
            exact Or.inl rfl
          · refine Or.inr ⟨_, entryId, hsp, rfl, rfl, rfl, ?_, ?_⟩
            · rw [← hs1tr]
              exact ht
            · rw [hs1db]
      · rw [if_neg hci]
        exact ⟨rfl, hs1db, Or.inl hs1ed⟩
    · rw [if_neg hit]
      exact ⟨rfl, hs1db, Or.inl hs1ed⟩

/-- C8: from the initial state, after any sequence of events at most one
editor widget exists (at most one cell is in the Editing state), and a
double click (the activation event) never calls the store and never changes
the database: it force-cancels any edit in progress, after which either no
cell is editing or a single fresh session for the clicked cell exists,
holding that cell's initial text and input focus (the prior uncommitted
value is discarded). -/
theorem inline_single_editor (db : DB) (evs : List (Nat × Event)) :
    (runEvents (initGui db) evs).liveEditors ≤ 1 ∧
    ∀ (now : Nat) (onCell : Bool) (item ci : Nat),
      (step (runEvents (initGui db) evs) now (Event.doubleClick onCell item ci)).2 = [] ∧
      (step (runEvents (initGui db) evs) now (Event.doubleClick onCell item ci)).1.db =
        (runEvents (initGui db) evs).db ∧
      ((step (runEvents (initGui db) evs) now (Event.doubleClick onCell item ci)).1.editing =
          none ∨
        ∃ (sess2 : EditSession) (entryId : Nat),
          (step (runEvents (initGui db) evs) now
            (Event.doubleClick onCell item ci)).1.editing = some sess2 ∧
          sess2.item = item ∧ sess2.columnIndex = ci ∧ sess2.hasFocus = true ∧
          (runEvents (initGui db) evs).tree.get? item = some entryId ∧
          sess2.text = initialCellText (runEvents (initGui db) evs).db entryId
            sess2.column) := by
  constructor
  · have hinv := editorInv_runEvents evs (initGui db) (editorInv_init db)
    unfold editorInv at hinv
    rw [hinv]
    by_cases hs : (runEvents (initGui db) evs).editing.isSome
    · rw [if_pos hs]
    · rw [if_neg hs]
      exact Nat.zero_le 1
  · intro now onCell item ci
    exact doubleClick_no_store (runEvents (initGui db) evs) now onCell item ci

/-- C9: a focus-loss notification never commits or calls the store, it only
marks the editor unfocused and queues one deferred check; when the event
loop later runs the check, nothing happens if the editor holds focus again,
and only if the editor still lacks focus does the commit procedure run. -/
theorem focus_loss_deferred (s : GuiState) (now : Nat) :
    ((step s now Event.focusOut).2 = [] ∧
     (step s now Event.focusOut).1.db = s.db ∧
     (∀ sess, s.editing = some sess →
        step s now Event.focusOut =
          ({ s with editing := some { sess with hasFocus := false }, pendingIdle := s.pendingIdle + 1 }, []))) ∧
    (∀ sess, s.editing = some sess → sess.hasFocus = true →
       (step s now Event.idle).2 = [] ∧ (step s now Event.idle).1.db = s.db) ∧
    (∀ sess, s.editing = some sess → sess.hasFocus = false → 0 < s.pendingIdle →
       step s now Event.idle =
         finishInlineEdit { s with pendingIdle := s.pendingIdle - 1 } now) := by
  refine ⟨?_, ?_, ?_⟩
  · unfold step
    cases hsome : s.editing with
    | none =>
      exact ⟨rfl, rfl, fun sess hs => Option.noConfusion hs⟩
    | some sess0 =>
      dsimp only
      refine ⟨rfl, rfl, ?_⟩
      intro sess hs
      injection hs with h2
      subst h2
      rfl
  · intro sess hs hf
    unfold step
    by_cases hp : s.pendingIdle = 0
    · rw [if_pos hp]
      exact ⟨rfl, rfl⟩
    · rw [if_neg hp]
      dsimp only
      rw [hs]
      dsimp only
      rw [if_pos hf]
      exact ⟨rfl, rfl⟩
  · intro sess hs hf hp0
    have hp : ¬ s.pendingIdle = 0 := Nat.pos_iff_ne_zero.mp hp0
    unfold step
    rw [if_neg hp]
    dsimp only
    rw [hs]
    dsimp only
    rw [if_neg (by rw [hf]; exact Bool.false_ne_true)]

/-- Witness for C9: in the focused fixture the queued check commits nothing,
and in the unfocused fixture it runs the commit procedure. -/
theorem focus_loss_deferred_witness :
    ((step wFoc 5 Event.idle).2 = [] ∧ (step wFoc 5 Event.idle).1.db = wFoc.db) ∧
    step wUnfoc 5 Event.idle =
      finishInlineEdit { wUnfoc with pendingIdle := wUnfoc.pendingIdle - 1 } 5 :=
  ⟨(focus_loss_deferred wFoc 5).2.1 wSessFoc rfl rfl,
   (focus_loss_deferred wUnfoc 5).2.2 wSessUnfoc rfl rfl (by decide)⟩

/-- C1 (behavior of the code at the failing input): with record 1 holding
`seller_1 = 5`, committing an inline edit of the Seller 1 cell whose typed
text is empty parses to no value, passes a single None-valued field to the
store call, which `update_entry` treats as field-not-provided: it returns
false and the store is unchanged, so the previously set amount is still
stored after the commit; no error is surfaced and the status bar even
reports a successful update.  This refutes the claim that the field is
cleared to no value. -/
theorem inline_empty_currency_commit_noop :
    (step cexGuiSeller1 7 Event.returnKey).2 =
      [StoreCall.update 1 ("seller_1") none none] ∧
    (step cexGuiSeller1 7 Event.returnKey).1.db = cexDB ∧
    get_entry (step cexGuiSeller1 7 Event.returnKey).1.db 1 = some cexEntry ∧
    (step cexGuiSeller1 7 Event.returnKey).1.status = "Seller 1 updated successfully" ∧
    (step cexGuiSeller1 7 Event.returnKey).1.errors = [] ∧
    (update_entry cexDB 7 1 none none none none none none none none none).2 = false := by
  decide

end DailyLedger
